import Mathlib

/-!
Shallow embedding of the broadcast subsystem of the chatbot repository:
the rate-limited broadcast dispatcher (`utils.send_broadcast`), the user
store (`database.Database`), and the admin gate (`config` + `utils.is_admin`).

Conventions of the embedding:
* Python dict-shaped user rows are modelled by the fixed-field structure
  `UserRow`, keeping exactly the fields the dispatcher and the ban/unban
  operations read or write.
* The sqlite connection is modelled by `Store`: a list of rows plus a flag
  `ioFails` that is true when the underlying cursor operations raise
  (I/O failure, corruption).  Every `Database` method in the source wraps
  its body in `try/except`, so in the embedding a failing store makes a
  read return `[]` and a write return `false`, exactly as the handlers do.
* The awaited result of one send task is modelled by `SendOutcome`:
  `ok` (the coroutine returned a normal value), `returnedFailure` (the
  coroutine returned a value that denotes failure, still not an
  `Exception` instance), `raised` (the coroutine raised; with
  `asyncio.gather(..., return_exceptions=True)` the exception object
  itself appears in the result list).  The dispatcher classifies results
  with `isinstance(result, Exception)`, embedded as `isExceptionInstance`.
* `asyncio.sleep` calls and created send tasks are recorded in the
  `BroadcastResult` so that pacing and "send never invoked" claims are
  expressible.
-/

/-- One row of the `users` table, restricted to the fields the broadcast
dispatcher and the ban/unban operations touch. -/
structure UserRow where
  user_id : Int
  is_banned : Bool
  ban_reason : Option String
  banned_by : Option Int
  ban_date : Option Nat
deriving DecidableEq, Repr

/-- The user store: the committed rows of the `users` table together with a
flag saying whether cursor operations currently raise (disk I/O failure or
corruption). -/
structure Store where
  rows : List UserRow
  ioFails : Bool
deriving DecidableEq, Repr

/-- Outcome of awaiting one send task, as seen by the dispatcher after
`asyncio.gather(*tasks, return_exceptions=True)`. -/
inductive SendOutcome where
  | ok
  | returnedFailure
  | raised
deriving DecidableEq, Repr

/-- The dispatcher's result classifier `isinstance(result, Exception)`:
only a raised error surfaces as an `Exception` instance in the list
returned by `gather(..., return_exceptions=True)`; a returned value —
even one denoting failure — is not an `Exception` instance. -/
def isExceptionInstance : SendOutcome → Bool
  | .raised => true
  | _ => false

/-- Observable result of one `send_broadcast` run: the two counters it
returns, plus the number of `asyncio.sleep` calls performed and the
`user_id`s for which a send task was created (in creation order). -/
structure BroadcastResult where
  success : Nat
  failed : Nat
  sleeps : Nat
  sends : List Int
deriving DecidableEq, Repr

/-- `config.MAX_BROADCAST_CHUNK`. -/
def MAX_BROADCAST_CHUNK : Nat := 30

/-- `config.BROADCAST_DELAY` (seconds slept between chunks). -/
def BROADCAST_DELAY : Nat := 1

/-- The chunking comprehension of `utils.send_broadcast`
(`[users[i:i + C] for i in range(0, len(users), C)]`).  For `C ≥ 1` (the
source uses the constant `MAX_BROADCAST_CHUNK = 30`) this recursion
produces exactly the Python slices. -/
def chunkList (C : Nat) : List α → List (List α)
  | [] => []
  | x :: xs => (x :: xs.take (C - 1)) :: chunkList C (xs.drop (C - 1))
termination_by l => l.length
decreasing_by
  simp only [List.length_drop, List.length_cons]
  omega

/-- The chunk loop of `utils.send_broadcast`.  `manyChunks` is the loop's
pacing condition `len(user_chunks) > 1`, evaluated on the full chunk list
and hence identical in every iteration.  Per chunk: banned users are
skipped by `continue` (no task, no counted outcome), a task is created for
every other user, the gathered results are classified with
`isinstance(result, Exception)`, and one `asyncio.sleep` happens whenever
`manyChunks` holds.  (The source's `if tasks:` guard merely skips an empty
`gather`; counting over an empty result list adds nothing, so it is
semantically transparent here.) -/
def runChunks (manyChunks : Bool) (send : Int → SendOutcome) :
    List (List UserRow) → BroadcastResult
  | [] => { success := 0, failed := 0, sleeps := 0, sends := [] }
  | chunk :: rest =>
    let tasks := (chunk.filter (fun u => !u.is_banned)).map (fun u => u.user_id)
    let results := tasks.map send
    let r := runChunks manyChunks send rest
    { success := results.countP (fun o => !isExceptionInstance o) + r.success
      failed := results.countP (fun o => isExceptionInstance o) + r.failed
      sleeps := (if manyChunks then 1 else 0) + r.sleeps
      sends := tasks ++ r.sends }

/-- `utils.send_broadcast` with the chunk size as an explicit parameter
(the spec's `dispatch(message, recipients, sendCapability)` with
configuration `batchSize`): early `(0, 0)` return on an empty snapshot,
chunking, the per-chunk loop, pacing.  The message text and parse mode are
closed over by the send capability `send`, which depends only on the
recipient id within one job. -/
def dispatch (batchSize : Nat) (send : Int → SendOutcome)
    (users : List UserRow) : BroadcastResult :=
  if users.isEmpty then { success := 0, failed := 0, sleeps := 0, sends := [] }
  else
    let user_chunks := chunkList batchSize users
    runChunks (decide (user_chunks.length > 1)) send user_chunks

/-- `utils.send_broadcast` proper: the source fixes the chunk size to the
configuration constant `MAX_BROADCAST_CHUNK`. -/
def send_broadcast (send : Int → SendOutcome) (users : List UserRow) :
    BroadcastResult :=
  dispatch MAX_BROADCAST_CHUNK send users

namespace Database

/-- `Database.get_all_users`: `SELECT * FROM users` when `include_banned`,
else `SELECT * FROM users WHERE is_banned = FALSE`; the whole body is
wrapped in `try/except` returning `[]` on any storage error. -/
def get_all_users (st : Store) (include_banned : Bool) : List UserRow :=
  if st.ioFails then []
  else if include_banned then st.rows
  else st.rows.filter (fun u => !u.is_banned)

/-- `Database.ban_user`: `UPDATE users SET is_banned = TRUE, ban_reason = ?,
banned_by = ?, ban_date = ? WHERE user_id = ?`, returning `True` on commit
and `False` when the cursor raises. -/
def ban_user (st : Store) (user_id : Int) (reason : String)
    (banned_by : Int) (current_time : Nat) : Store × Bool :=
  if st.ioFails then (st, false)
  else
    ({ st with
        rows := st.rows.map (fun r =>
          if r.user_id = user_id then
            { r with
                is_banned := true
                ban_reason := some reason
                banned_by := some banned_by
                ban_date := some current_time }
          else r) },
     true)

/-- `Database.unban_user`: `UPDATE users SET is_banned = FALSE,
ban_reason = NULL, banned_by = NULL, ban_date = NULL WHERE user_id = ?`,
returning `True` on commit and `False` when the cursor raises. -/
def unban_user (st : Store) (user_id : Int) : Store × Bool :=
  if st.ioFails then (st, false)
  else
    ({ st with
        rows := st.rows.map (fun r =>
          if r.user_id = user_id then
            { r with
                is_banned := false
                ban_reason := none
                banned_by := none
                ban_date := none }
          else r) },
     true)

end Database

/-- Modelled from the spec: the spec's `UserStore.getSnapshot` contract —
store operations fail with `StorageError` on I/O failure instead of being
swallowed.  The error taxonomy names this case `StorageError`. -/
inductive StorageError where
  | storageError
deriving DecidableEq, Repr

/-- Modelled from the spec: `getSnapshot(includeBanned)` as the spec's §4.1
contract words it — the row selection of `Database.get_all_users`, but an
I/O failure is surfaced to the caller as a `StorageError` rather than
caught.  Used only to compare the spec's failure contract with the code's. -/
def getSnapshotSpec (st : Store) (includeBanned : Bool) :
    Except StorageError (List UserRow) :=
  if st.ioFails then .error .storageError
  else if includeBanned then .ok st.rows
  else .ok (st.rows.filter (fun u => !u.is_banned))

/-- Parsing of the `ADMIN_IDS` environment value in `config.py`:
`list(map(int, filter(None, s.split(','))))` when the string is non-empty,
`[]` otherwise.  `none` models the `ValueError` a non-numeric token raises
at import time (process startup fails). -/
def parseAdminIds (admin_ids_str : String) : Option (List Int) :=
  if admin_ids_str = "" then some []
  else ((admin_ids_str.split (· = ',')).filter (· ≠ "")).mapM String.toInt?

/-- `config.py` lines 12–17: the parsed admin list with
`ADMIN_IDS.append(OWNER_ID)` — the owner is always appended. -/
def mkAdminIds (admin_ids_str : String) (OWNER_ID : Int) :
    Option (List Int) :=
  (parseAdminIds admin_ids_str).map (fun l => l ++ [OWNER_ID])

/-- `utils.is_admin`: membership of `user_id` in the startup-loaded
`ADMIN_IDS` list. -/
def is_admin (user_id : Int) (ADMIN_IDS : List Int) : Bool :=
  decide (user_id ∈ ADMIN_IDS)

/-! ### Concrete stores, rows and send capabilities used as test inputs -/

/-- A non-banned user row with the given id. -/
def mkRow (i : Int) : UserRow :=
  { user_id := i, is_banned := false, ban_reason := none, banned_by := none
    ban_date := none }

/-- Five distinct non-banned recipients. -/
def users5 : List UserRow := [mkRow 1, mkRow 2, mkRow 3, mkRow 4, mkRow 5]

/-- Seven distinct non-banned recipients. -/
def users7 : List UserRow :=
  [mkRow 1, mkRow 2, mkRow 3, mkRow 4, mkRow 5, mkRow 6, mkRow 7]

/-- A send capability whose every call returns normally. -/
def sendAllOk : Int → SendOutcome := fun _ => .ok

/-- Send capability for the seven-recipient scenario: recipients 1–3
succeed, 4–5 raise, 6–7 return an explicit failure result. -/
def sendMixed7 : Int → SendOutcome := fun i =>
  if i ≤ 3 then .ok else if i ≤ 5 then .raised else .returnedFailure

/-- Send capability that raises for recipient 2 and succeeds for all
others. -/
def sendRaise2 : Int → SendOutcome := fun i => if i = 2 then .raised else .ok

/-- Three distinct non-banned recipients. -/
def users3 : List UserRow := [mkRow 1, mkRow 2, mkRow 3]

/-- A store whose cursor operations currently raise (disk I/O failure),
while the committed table still holds one row. -/
def errStore : Store := { rows := [mkRow 1], ioFails := true }

/-- A healthy store with an empty `users` table. -/
def emptyStore : Store := { rows := [], ioFails := false }

/-- A banned user row. -/
def bannedRow : UserRow :=
  { user_id := 9, is_banned := true, ban_reason := some "spam"
    banned_by := some 1, ban_date := some 0 }

/-- A healthy store holding one non-banned and one banned row. -/
def storeMixed : Store := { rows := [mkRow 1, bannedRow], ioFails := false }

/-- A healthy store holding two non-banned rows, none of them ever
banned. -/
def storeClean : Store := { rows := [mkRow 1, mkRow 2], ioFails := false }

/-! ### Helper lemmas about the chunking comprehension -/

theorem chunkList_flatten (C : Nat) (l : List α) : (chunkList C l).flatten = l := by
  induction l using chunkList.induct C with
  | case1 => simp [chunkList]
  | case2 x xs ih =>
    rw [chunkList, List.flatten_cons, ih]
    simp

theorem chunkList_eq_nil_iff (C : Nat) (l : List α) : chunkList C l = [] ↔ l = [] := by
  cases l <;> simp [chunkList]

theorem chunkList_mem_length (C : Nat) (hC : 1 ≤ C) (l : List α) :
    ∀ b ∈ chunkList C l, b ≠ [] ∧ b.length ≤ C := by
  induction l using chunkList.induct C with
  | case1 => simp [chunkList]
  | case2 x xs ih =>
    intro b hb
    rw [chunkList] at hb
    rcases List.mem_cons.mp hb with h | h
    · subst h
      refine ⟨by simp, ?_⟩
      simp only [List.length_cons, List.length_take]
      omega
    · exact ih b h

theorem chunkList_dropLast_length (C : Nat) (hC : 1 ≤ C) (l : List α) :
    ∀ b ∈ (chunkList C l).dropLast, b.length = C := by
  induction l using chunkList.induct C with
  | case1 => simp [chunkList]
  | case2 x xs ih =>
    intro b hb
    rw [chunkList] at hb
    by_cases hrest : chunkList C (xs.drop (C - 1)) = []
    · rw [hrest] at hb
      simp at hb
    · rw [List.dropLast_cons_of_ne_nil hrest] at hb
      rcases List.mem_cons.mp hb with h | h
      · subst h
        have hxs : xs.drop (C - 1) ≠ [] := by
          intro hcon
          exact hrest (by rw [hcon, chunkList])
        have hlen : C - 1 ≤ xs.length := by
          by_contra hcon
          exact hxs (List.drop_eq_nil_of_le (by omega))
        simp only [List.length_cons, List.length_take]
        omega
      · exact ih b h

theorem countP_mem_le_sum_count [DecidableEq α] (x : α) (ll : List (List α)) :
    ll.countP (fun b => decide (x ∈ b)) ≤ (ll.map (fun b => b.count x)).sum := by
  induction ll with
  | nil => simp
  | cons b rest ih =>
    rw [List.countP_cons, List.map_cons, List.sum_cons]
    by_cases hx : x ∈ b
    · have h1 : 1 ≤ b.count x := List.one_le_count_iff.mpr hx
      rw [if_pos (by simp [hx])]
      omega
    · rw [if_neg (by simp [hx])]
      omega

/-! ### Characterisation of the chunk loop and of `dispatch` -/

theorem runChunks_success (m : Bool) (send : Int → SendOutcome)
    (cs : List (List UserRow)) :
    (runChunks m send cs).success =
      (cs.flatten.filter (fun u => !u.is_banned)).countP
        (fun u => !isExceptionInstance (send u.user_id)) := by
  induction cs with
  | nil => rfl
  | cons c rest ih =>
    simp only [runChunks, ih, List.flatten_cons, List.filter_append,
      List.countP_append, List.countP_map]
    rfl

theorem runChunks_failed (m : Bool) (send : Int → SendOutcome)
    (cs : List (List UserRow)) :
    (runChunks m send cs).failed =
      (cs.flatten.filter (fun u => !u.is_banned)).countP
        (fun u => isExceptionInstance (send u.user_id)) := by
  induction cs with
  | nil => rfl
  | cons c rest ih =>
    simp only [runChunks, ih, List.flatten_cons, List.filter_append,
      List.countP_append, List.countP_map]
    rfl

theorem runChunks_sleeps (m : Bool) (send : Int → SendOutcome)
    (cs : List (List UserRow)) :
    (runChunks m send cs).sleeps = (if m then 1 else 0) * cs.length := by
  induction cs with
  | nil => simp [runChunks]
  | cons c rest ih =>
    simp only [runChunks, ih, List.length_cons]
    ring

theorem runChunks_sends (m : Bool) (send : Int → SendOutcome)
    (cs : List (List UserRow)) :
    (runChunks m send cs).sends =
      (cs.flatten.filter (fun u => !u.is_banned)).map (fun u => u.user_id) := by
  induction cs with
  | nil => rfl
  | cons c rest ih =>
    simp only [runChunks, ih, List.flatten_cons, List.filter_append,
      List.map_append]

theorem dispatch_success (C : Nat) (send : Int → SendOutcome)
    (users : List UserRow) :
    (dispatch C send users).success =
      (users.filter (fun u => !u.is_banned)).countP
        (fun u => !isExceptionInstance (send u.user_id)) := by
  by_cases h : users.isEmpty
  · rw [List.isEmpty_iff] at h
    subst h
    rfl
  · rw [dispatch, if_neg h, runChunks_success, chunkList_flatten]

theorem dispatch_failed (C : Nat) (send : Int → SendOutcome)
    (users : List UserRow) :
    (dispatch C send users).failed =
      (users.filter (fun u => !u.is_banned)).countP
        (fun u => isExceptionInstance (send u.user_id)) := by
  by_cases h : users.isEmpty
  · rw [List.isEmpty_iff] at h
    subst h
    rfl
  · rw [dispatch, if_neg h, runChunks_failed, chunkList_flatten]

theorem dispatch_sleeps (C : Nat) (send : Int → SendOutcome)
    (users : List UserRow) :
    (dispatch C send users).sleeps =
      if users.isEmpty then 0
      else if 1 < (chunkList C users).length then (chunkList C users).length
      else 0 := by
  by_cases h : users.isEmpty
  · rw [List.isEmpty_iff] at h
    subst h
    rfl
  · rw [dispatch, if_neg h, runChunks_sleeps, if_neg h]
    by_cases hlen : 1 < (chunkList C users).length
    · simp [hlen]
    · simp [hlen]

theorem dispatch_sends (C : Nat) (send : Int → SendOutcome)
    (users : List UserRow) :
    (dispatch C send users).sends =
      (users.filter (fun u => !u.is_banned)).map (fun u => u.user_id) := by
  by_cases h : users.isEmpty
  · rw [List.isEmpty_iff] at h
    subst h
    rfl
  · rw [dispatch, if_neg h, runChunks_sends, chunkList_flatten]

theorem countP_not_add_countP (p : α → Bool) (l : List α) :
    l.countP (fun a => !p a) + l.countP p = l.length := by
  induction l with
  | nil => rfl
  | cons a t ih =>
    rw [List.countP_cons, List.countP_cons, List.length_cons]
    cases h : p a <;> simp [h] <;> omega

theorem get_all_users_not_banned (st : Store) :
    ∀ u ∈ Database.get_all_users st false, u.is_banned = false := by
  intro u hu
  by_cases h : st.ioFails
  · simp [Database.get_all_users, h] at hu
  · simp only [Database.get_all_users, if_neg h, if_false, Bool.false_eq_true,
      List.mem_filter, Bool.not_eq_true'] at hu
    exact hu.2

/-! ### Claim theorems -/

/-- C8: dispatching a broadcast with an empty recipient list returns the
tally `(0, 0)` immediately: the send capability is never invoked (no task
created) and no inter-batch `asyncio.sleep` is performed — for the source's
`send_broadcast` and for any chunk size. -/
theorem C8_empty_snapshot (C : Nat) (send : Int → SendOutcome) :
    send_broadcast send [] =
      { success := 0, failed := 0, sleeps := 0, sends := [] } ∧
    dispatch C send [] =
      { success := 0, failed := 0, sleeps := 0, sends := [] } :=
  ⟨rfl, rfl⟩

/-- C2: conservation — for every store state, the snapshot handed to the
dispatcher (`get_all_users()` with banned users excluded, as
`send_broadcast` reads it) of size `N` yields a tally `(s, f)` with
`s + f = N`: every recipient in the snapshot produces exactly one counted
outcome, for the source's chunk size and for any other. -/
theorem C2_conservation (st : Store) (send : Int → SendOutcome) (C : Nat) :
    (dispatch C send (Database.get_all_users st false)).success +
        (dispatch C send (Database.get_all_users st false)).failed =
      (Database.get_all_users st false).length ∧
    (send_broadcast send (Database.get_all_users st false)).success +
        (send_broadcast send (Database.get_all_users st false)).failed =
      (Database.get_all_users st false).length := by
  have key : ∀ D : Nat,
      (dispatch D send (Database.get_all_users st false)).success +
          (dispatch D send (Database.get_all_users st false)).failed =
        (Database.get_all_users st false).length := by
    intro D
    rw [dispatch_success, dispatch_failed]
    rw [List.filter_eq_self.mpr (by
      intro u hu
      rw [Bool.not_eq_true']
      exact get_all_users_not_banned st u hu)]
    exact countP_not_add_countP _ _
  exact ⟨key C, key MAX_BROADCAST_CHUNK⟩

/-- C1: the pacing condition in `send_broadcast` is `len(user_chunks) > 1`,
checked after every chunk — including the final one — so a job with `k ≥ 2`
batches performs `k` delays, not `k − 1`: with batch size 2 and 5
recipients (batches of 2, 2, 1) the code sleeps 3 times where the claim
says exactly 2, and at the source's fixed chunk size 30 with 35 recipients
(batches of 30, 5) it sleeps 2 times where the claim says exactly 1. -/
theorem C1_trailing_delay (C : Nat) (send : Int → SendOutcome)
    (users : List UserRow) (h : 1 < (chunkList C users).length) :
    (dispatch C send users).sleeps = (chunkList C users).length ∧
    (dispatch 2 sendAllOk users5).sleeps = 3 := by
  constructor
  · have hne : ¬users.isEmpty := by
      intro hcon
      rw [List.isEmpty_iff] at hcon
      subst hcon
      rw [(chunkList_eq_nil_iff C ([] : List UserRow)).mpr rfl] at h
      simp at h
    rw [dispatch_sleeps, if_neg hne, if_pos h]
  · simp [dispatch, chunkList, runChunks, users5, mkRow, sendAllOk]

/-- C1 witness: the spec's own pacing scenario — batch size 2 and the five
recipients of `users5` produce 3 chunks, so the hypothesis of
`C1_trailing_delay` holds there and the code performs 3 delays. -/
theorem C1_trailing_delay_witness :
    1 < (chunkList 2 users5).length ∧
    ((dispatch 2 sendAllOk users5).sleeps = (chunkList 2 users5).length ∧
      (dispatch 2 sendAllOk users5).sleeps = 3) :=
  ⟨by simp [chunkList, users5],
   C1_trailing_delay 2 sendAllOk users5 (by simp [chunkList, users5])⟩

/-- C5: the tally of the seven-recipient scenario (ids 1–7, batch size 3,
recipients 1–3 succeed, 4–5 raise, 6–7 return an explicit failure result)
is not `(3, 4)` as the claim states. -/
theorem C5_counterexample :
    ¬((dispatch 3 sendMixed7 users7).success = 3 ∧
      (dispatch 3 sendMixed7 users7).failed = 4) := by
  simp [dispatch, chunkList, runChunks, users7, mkRow, sendMixed7,
    isExceptionInstance, List.countP_cons]

/-- C5 (amended): in that scenario `send_broadcast`'s result classifier
`isinstance(result, Exception)` counts only the two raised errors as
failures; an explicitly returned failure result is not an `Exception`
instance and is counted as a success, so the tally is `(5, 2)`. -/
theorem C5_amended_tally :
    (dispatch 3 sendMixed7 users7).success = 5 ∧
    (dispatch 3 sendMixed7 users7).failed = 2 := by
  constructor <;>
    simp [dispatch, chunkList, runChunks, users7, mkRow, sendMixed7,
      isExceptionInstance, List.countP_cons]

/-- C3: batch isolation — if the send capability raises for exactly one
recipient `x` of a snapshot of non-banned users and returns normally for
every other recipient, the job is not aborted: the tally counts exactly
one failure and a success for every other recipient, whatever the batch
size. -/
theorem C3_batch_isolation (C : Nat) (send : Int → SendOutcome)
    (users : List UserRow) (x : Int)
    (hban : ∀ u ∈ users, u.is_banned = false)
    (hsend : ∀ u ∈ users, send u.user_id =
      if u.user_id = x then SendOutcome.raised else SendOutcome.ok)
    (hx : users.countP (fun u => decide (u.user_id = x)) = 1) :
    (dispatch C send users).failed = 1 ∧
    (dispatch C send users).success = users.length - 1 := by
  have hfilter : users.filter (fun u => !u.is_banned) = users :=
    List.filter_eq_self.mpr (fun u hu => by rw [hban u hu]; rfl)
  have hcong : ∀ u ∈ users,
      isExceptionInstance (send u.user_id) = decide (u.user_id = x) := by
    intro u hu
    rw [hsend u hu]
    by_cases h : u.user_id = x
    · simp [h, isExceptionInstance]
    · simp [h, isExceptionInstance]
  have hexc : users.countP (fun u => isExceptionInstance (send u.user_id)) = 1 := by
    rw [List.countP_congr (fun u hu => by rw [hcong u hu])]
    exact hx
  have htot := countP_not_add_countP
    (fun u => isExceptionInstance (send u.user_id)) users
  constructor
  · rw [dispatch_failed, hfilter]
    exact hexc
  · rw [dispatch_success, hfilter]
    omega

/-- C3 witness: three non-banned recipients, the capability raises for
recipient 2 only; batch size 2 gives batches `[1, 2]` and `[3]`, and the
tally is one failure, two successes. -/
theorem C3_batch_isolation_witness :
    (dispatch 2 sendRaise2 users3).failed = 1 ∧
    (dispatch 2 sendRaise2 users3).success = users3.length - 1 :=
  C3_batch_isolation 2 sendRaise2 users3 2 (by decide) (by decide) (by decide)

/-- C4 counterexample: on a store whose read raises, `get_all_users`
swallows the exception and returns `[]` — the very value a healthy empty
store produces — while the spec's `getSnapshot` contract would surface a
`StorageError`; no error reaches the caller of the code. -/
theorem C4_counterexample :
    Database.get_all_users errStore false = [] ∧
    Database.get_all_users errStore false =
      Database.get_all_users emptyStore false ∧
    getSnapshotSpec errStore false =
      Except.error StorageError.storageError :=
  ⟨rfl, rfl, rfl⟩

/-- C4 (amended): when the snapshot read fails with a storage error, no
sends occur and the dispatcher does not retry — but the failure is not
reported: `get_all_users` catches the exception and returns `[]`, so the
broadcast completes normally with the success tally `(0, 0)`. -/
theorem C4_swallowed_error (st : Store) (C : Nat) (send : Int → SendOutcome)
    (h : st.ioFails = true) :
    Database.get_all_users st false = [] ∧
    dispatch C send (Database.get_all_users st false) =
      { success := 0, failed := 0, sleeps := 0, sends := [] } := by
  have h1 : Database.get_all_users st false = [] := by
    simp [Database.get_all_users, h]
  exact ⟨h1, by rw [h1]; rfl⟩

/-- C4 witness: the failing store `errStore` at the source's chunk size. -/
theorem C4_swallowed_error_witness :
    Database.get_all_users errStore false = [] ∧
    dispatch MAX_BROADCAST_CHUNK sendAllOk
        (Database.get_all_users errStore false) =
      { success := 0, failed := 0, sleeps := 0, sends := [] } :=
  C4_swallowed_error errStore MAX_BROADCAST_CHUNK sendAllOk rfl

/-- C6: the chunking comprehension of `send_broadcast` partitions the
recipient list into consecutive batches: their concatenation is the
original list (order preserved), every batch is non-empty of size at most
`batchSize`, every batch but the last has size exactly `batchSize`, and —
for a duplicate-free snapshot — each recipient appears in at most one
batch. -/
theorem C6_partition (C : Nat) (users : List UserRow)
    (hC : 1 ≤ C) (hnd : users.Nodup) :
    (chunkList C users).flatten = users ∧
    (∀ b ∈ chunkList C users, b ≠ [] ∧ b.length ≤ C) ∧
    (∀ b ∈ (chunkList C users).dropLast, b.length = C) ∧
    ∀ x : UserRow, (chunkList C users).countP (fun b => decide (x ∈ b)) ≤ 1 := by
  refine ⟨chunkList_flatten C users, chunkList_mem_length C hC users,
    chunkList_dropLast_length C hC users, ?_⟩
  intro x
  have h1 := countP_mem_le_sum_count x (chunkList C users)
  have h2 : ((chunkList C users).map (fun b => b.count x)).sum =
      users.count x := by
    conv_rhs => rw [← chunkList_flatten C users]
    exact (List.count_flatten x (chunkList C users)).symm
  have h3 := List.nodup_iff_count_le_one.mp hnd x
  omega

/-- C6 witness: batch size 2 over the five distinct recipients of
`users5`. -/
theorem C6_partition_witness :
    (chunkList 2 users5).flatten = users5 ∧
    (∀ b ∈ chunkList 2 users5, b ≠ [] ∧ b.length ≤ 2) ∧
    (∀ b ∈ (chunkList 2 users5).dropLast, b.length = 2) ∧
    ∀ x : UserRow, (chunkList 2 users5).countP (fun b => decide (x ∈ b)) ≤ 1 :=
  C6_partition 2 users5 (by decide) (by decide)

/-- C7: on a readable store, the snapshot with `include_banned = False`
never contains a row whose `is_banned` flag is set, and the snapshot with
`include_banned = True` is exactly the whole table, banned rows
included. -/
theorem C7_ban_exclusion (st : Store) (h : st.ioFails = false) :
    (∀ u ∈ Database.get_all_users st false, u.is_banned = false) ∧
    Database.get_all_users st true = st.rows := by
  refine ⟨get_all_users_not_banned st, ?_⟩
  simp [Database.get_all_users, h]

/-- C7 witness: a store holding one banned and one non-banned row. -/
theorem C7_ban_exclusion_witness :
    (∀ u ∈ Database.get_all_users storeMixed false, u.is_banned = false) ∧
    Database.get_all_users storeMixed true = storeMixed.rows :=
  C7_ban_exclusion storeMixed rfl

/-- C9: on a readable store, banning the same user a second time succeeds
and overwrites `ban_reason`, `banned_by` and `ban_date` with the new
values — the double ban equals a single ban with the new values — and
unbanning a user that was never banned is a no-op that still reports
success. -/
theorem C9_ban_unban_idempotent (st : Store) (uid : Int)
    (r1 r2 : String) (a1 a2 : Int) (t1 t2 : Nat)
    (hio : st.ioFails = false)
    (hclean : ∀ row ∈ st.rows, row.user_id = uid →
      row.is_banned = false ∧ row.ban_reason = none ∧
      row.banned_by = none ∧ row.ban_date = none) :
    Database.ban_user (Database.ban_user st uid r1 a1 t1).1 uid r2 a2 t2 =
      Database.ban_user st uid r2 a2 t2 ∧
    (Database.ban_user (Database.ban_user st uid r1 a1 t1).1 uid r2 a2 t2).2 =
      true ∧
    Database.unban_user st uid = (st, true) := by
  have hfst : (Database.ban_user st uid r1 a1 t1).1 =
      { st with
          rows := st.rows.map (fun r =>
            if r.user_id = uid then
              { r with
                  is_banned := true
                  ban_reason := some r1
                  banned_by := some a1
                  ban_date := some t1 }
            else r) } := by
    simp [Database.ban_user, hio]
  have hmap : (st.rows.map (fun r =>
        if r.user_id = uid then
          { r with
              is_banned := true
              ban_reason := some r1
              banned_by := some a1
              ban_date := some t1 }
        else r)).map (fun r =>
        if r.user_id = uid then
          { r with
              is_banned := true
              ban_reason := some r2
              banned_by := some a2
              ban_date := some t2 }
        else r) =
      st.rows.map (fun r =>
        if r.user_id = uid then
          { r with
              is_banned := true
              ban_reason := some r2
              banned_by := some a2
              ban_date := some t2 }
        else r) := by
    rw [List.map_map]
    apply List.map_congr_left
    intro r _
    by_cases h : r.user_id = uid
    · simp [Function.comp, h]
    · simp [Function.comp, h]
  have hunban : Database.unban_user st uid = (st, true) := by
    have hrows : st.rows.map (fun r =>
        if r.user_id = uid then
          { r with
              is_banned := false
              ban_reason := none
              banned_by := none
              ban_date := none }
        else r) = st.rows := by
      conv_rhs => rw [← List.map_id st.rows]
      apply List.map_congr_left
      intro r hr
      by_cases h : r.user_id = uid
      · obtain ⟨h1, h2, h3, h4⟩ := hclean r hr h
        cases r
        simp_all
      · simp [h]
    simp [Database.unban_user, hio, hrows]
    rw [← hio]
  refine ⟨?_, ?_, hunban⟩
  · rw [hfst]
    simp only [Database.ban_user, hio, Bool.false_eq_true, if_false]
    rw [hmap]
  · rw [hfst]
    simp [Database.ban_user, hio]

/-- C9 witness: a clean two-row store, user 1 banned twice with different
reasons, then the clean store unbanned. -/
theorem C9_ban_unban_idempotent_witness :
    Database.ban_user (Database.ban_user storeClean 1 "spam" 10 5).1
        1 "abuse" 11 6 =
      Database.ban_user storeClean 1 "abuse" 11 6 ∧
    (Database.ban_user (Database.ban_user storeClean 1 "spam" 10 5).1
        1 "abuse" 11 6).2 = true ∧
    Database.unban_user storeClean 1 = (storeClean, true) :=
  C9_ban_unban_idempotent storeClean 1 "spam" "abuse" 10 11 5 6 rfl (by decide)

/-- C10: however the `ADMIN_IDS` environment value reads — including the
empty string — whenever startup parsing succeeds the owner id is appended
to the admin list, so the admin gate authorizes the owner. -/
theorem C10_owner_always_admin (s : String) (OWNER_ID : Int)
    (l : List Int) (h : mkAdminIds s OWNER_ID = some l) :
    OWNER_ID ∈ l ∧ is_admin OWNER_ID l = true := by
  rw [mkAdminIds] at h
  cases hp : parseAdminIds s with
  | none => rw [hp] at h; simp at h
  | some l0 =>
    rw [hp] at h
    simp only [Option.map_some'] at h
    have hmem : OWNER_ID ∈ l := by
      rw [← Option.some_inj.mp h]
      simp
    exact ⟨hmem, by simp [is_admin, hmem]⟩

/-- C10 witness: an unset `ADMIN_IDS` (empty string) still yields an admin
list containing the default owner id, and the gate authorizes it. -/
theorem C10_owner_always_admin_witness :
    (8327651421 : Int) ∈ [(8327651421 : Int)] ∧
    is_admin 8327651421 [(8327651421 : Int)] = true :=
  C10_owner_always_admin "" 8327651421 [(8327651421 : Int)] (by decide)
